import Mathlib

/-!
Shallow embedding of the debtor-ledger reconciliation pipeline of
`src/app.py` (the "Mini App Deudores" script), together with theorems that
settle the specification claims about it.

The script's pipeline, embedded below:
* load/cleanup pass (lines 67-104): per-column normalization
  (`astype(str).str.strip().str.upper()` for `Cliente`,
  `pd.to_datetime(errors="coerce").dt.date` for `Fecha`,
  `pd.to_numeric(errors="coerce")` for `Valor`, `normalize_paid` for
  `Pagado`), then `dropna(how="all")`, then the paid filter, the sort by
  `Cliente` and the positional re-numbering of `Consecutivo`;
* insert handler (lines 143-157): reject an empty client name, otherwise
  append a row with `Consecutivo = len(df) + 1` and `Pagado = False`;
* bulk table-edit save handler (lines 193-212): for each edited row, find
  the first row of the original table with the same `Consecutivo` and
  overwrite its `Cliente`/`Fecha`/`Valor`/`Pagado` in place, then filter
  paid rows, sort by `Cliente` and re-number;
* aggregation (lines 219-229): `groupby("Cliente")["Valor"].sum()` and the
  grand total `df["Valor"].sum()`.

Modelling conventions: pandas cells are `Cell` values (missing / numeric /
text); numbers are `ℚ`; a calendar date is an abstract `Int` day index and
date-string parsing (orthogonal to every claim) is not modelled beyond
"failure coerces to null"; `pd.sort_values` on the single `Cliente` column
(default `kind='quicksort'`, which pandas documents as not stable) is
embedded as one concrete ascending sort, and the theorems use only the
properties every `sort_values` kind guarantees — sortedness of the result
and that it is a permutation of the input — never the model's tie order.
Python's code-point-wise string comparison is embedded as an executable
lexicographic comparison `strLe`.
-/

namespace Deudores

/-- A pandas cell as loaded from the spreadsheet: missing (`NaN`), a
numeric value, or a text value. -/
inductive Cell where
  | na : Cell
  | num (q : ℚ) : Cell
  | text (s : String) : Cell
deriving DecidableEq

/-- Python `str.isspace`-style test used by `str.strip` (the whitespace
characters exercised by the data; Python also strips rarer Unicode spaces,
which never occur in the inputs considered). -/
def pyIsSpace (c : Char) : Bool :=
  c == ' ' || c == '\t' || c == '\n' || c == '\r'

/-- Python `str.strip()`: drop leading and trailing whitespace. -/
def pyStrip (s : String) : String :=
  String.mk (((s.data.dropWhile pyIsSpace).reverse.dropWhile pyIsSpace).reverse)

/-- Python `str.upper()` on one character, for the character ranges the data
can contain: ASCII `a`-`z` and the Latin-1 lowercase block `à`-`þ` (which
includes `é`, `í`), each mapped down by 0x20 to its uppercase form; `÷` is
not a letter and `ß`/`µ`/`ÿ` (whose Python uppercasings are irregular) lie
outside the mapped block and are left unchanged. -/
def pyCharUpper (c : Char) : Char :=
  if 'a' ≤ c ∧ c ≤ 'z' then Char.ofNat (c.toNat - 32)
  else if 'à' ≤ c ∧ c ≤ 'þ' ∧ c ≠ '÷' then Char.ofNat (c.toNat - 32)
  else c

/-- Python `str.upper()`. -/
def pyUpper (s : String) : String :=
  String.mk (s.data.map pyCharUpper)

/-- The client normalization the script applies everywhere:
`.strip().upper()` (lines 75-76, 125, 200). -/
def normCliente (s : String) : String :=
  pyUpper (pyStrip s)

/-- Python `str()` of a pandas cell: `str(nan) = "nan"`; integer-valued
numeric cells print as their integer (what `read_excel` yields for integer
columns — float decimal formatting is not exercised by any claim). -/
def cellToStr : Cell → String
  | Cell.na => "nan"
  | Cell.num q => toString q
  | Cell.text s => s

/-- `normalize_paid` (lines 86-89): `str(x).upper()` is an affirmative
token, else `False`. -/
def normalize_paid (x : Cell) : Bool :=
  ["1", "TRUE", "PAGADO", "SI", "SÍ", "YES"].contains (pyUpper (cellToStr x))

/-- Value of a string of decimal digits. -/
def digitsVal (l : List Char) : Nat :=
  l.foldl (fun a c => a * 10 + (c.toNat - 48)) 0

/-- All characters are decimal digits. -/
def allDigits (l : List Char) : Bool :=
  l.all (fun c => '0' ≤ c && c ≤ '9')

/-- Parse an unsigned decimal literal (`"12"`, `"12.5"`, `".5"`, `"12."`). -/
def parseUnsigned (l : List Char) : Option ℚ :=
  match l.splitOn '.' with
  | [ip] => if ip ≠ [] ∧ allDigits ip then some (digitsVal ip) else none
  | [ip, fp] =>
      if (ip ≠ [] ∨ fp ≠ []) ∧ allDigits ip ∧ allDigits fp then
        some ((digitsVal ip : ℚ) + (digitsVal fp : ℚ) / ((10 : ℚ) ^ fp.length))
      else none
  | _ => none

/-- Numeric parsing of text, as `pd.to_numeric` accepts plain decimal
literals with an optional sign and surrounding whitespace (exponent forms
and the like, unexercised here, simply fail to parse). -/
def pyParseNum (s : String) : Option ℚ :=
  match (pyStrip s).data with
  | '-' :: rest => (parseUnsigned rest).map (fun q => -q)
  | '+' :: rest => parseUnsigned rest
  | l => parseUnsigned l

/-- `pd.to_numeric(errors="coerce")` on one cell (line 83): a missing or
unparseable value becomes `NaN` (here `none`); parsed values — including
negative ones — pass through unchanged. -/
def cellToNumeric : Cell → Option ℚ
  | Cell.na => none
  | Cell.num q => some q
  | Cell.text s => pyParseNum s

/-- `pd.to_datetime(errors="coerce").dt.date` on one cell (line 80), at the
granularity the claims need: missing or unparseable input becomes null
(`NaT`); an integer-valued numeric cell stands for an already-parsed date
(an abstract day index). Calendar string parsing is orthogonal to every
claim and is left as the failure branch. -/
def cellToDate : Cell → Option Int
  | Cell.na => none
  | Cell.num q => if q.den = 1 then some q.num else none
  | Cell.text _ => none

/-- A raw spreadsheet row as handed to the cleanup pass; a column missing
from the file is materialized as all-`na` cells (lines 67-69). -/
structure RawRow where
  consecutivo : Cell
  cliente : Cell
  fecha : Cell
  valor : Cell
  pagado : Cell
deriving DecidableEq

/-- A row after the per-column normalization (lines 72-91) but before
`dropna`/filter/sort/renumber: `Cliente` is now a genuine string, `Pagado`
a genuine boolean, `Consecutivo` still the untouched raw cell. -/
structure Interim where
  consecutivo : Cell
  cliente : String
  fecha : Option Int
  valor : Option ℚ
  pagado : Bool
deriving DecidableEq

/-- A canonical debt record as persisted by the script. -/
structure Rec where
  consecutivo : Nat
  cliente : String
  fecha : Option Int
  valor : Option ℚ
  pagado : Bool
deriving DecidableEq

/-- One row returned by the table editor in the bulk-edit handler: the
editor's columns are typed, so the handler receives a string client, a
date, a number, and a checkbox boolean (lines 196-203). -/
structure EditedRow where
  consecutivo : Nat
  cliente : String
  fecha : Int
  valor : ℚ
  pagado : Bool
deriving DecidableEq

/-- The per-column normalization pass (lines 72-91) on one row. -/
def normRow (r : RawRow) : Interim :=
  { consecutivo := r.consecutivo
    cliente := normCliente (cellToStr r.cliente)
    fecha := cellToDate r.fecha
    valor := cellToNumeric r.valor
    pagado := normalize_paid r.pagado }

/-- pandas NA-ness of the `Cliente` column after `astype(str)`: a Python
`str` (including the string `"nan"` that `astype(str)` makes of `NaN`) is
never NA. -/
def strIsNA (_ : String) : Bool := false

/-- pandas NA-ness of the `Pagado` column after `apply(normalize_paid)`: a
Python `bool` is never NA. -/
def boolIsNA (_ : Bool) : Bool := false

/-- Row NA-ness as `dropna(how="all")` (line 94) sees it at that point of
the pipeline: all five columns NA. -/
def rowAllNA (r : Interim) : Bool :=
  (r.consecutivo == Cell.na) && strIsNA r.cliente && r.fecha.isNone
    && r.valor.isNone && boolIsNA r.pagado

/-- `df.dropna(how="all")` (line 94). -/
def dropnaAll (l : List Interim) : List Interim :=
  l.filter (fun r => !rowAllNA r)

/-- Executable lexicographic comparison of character lists by code point —
how Python (and hence pandas on this string column) compares strings. -/
def lexLe : List Char → List Char → Bool
  | [], _ => true
  | _ :: _, [] => false
  | a :: as, b :: bs => if a < b then true else if b < a then false else lexLe as bs

/-- Code-point-wise string comparison. -/
def strLe (a b : String) : Bool :=
  lexLe a.data b.data

/-- `sort_values(by="Cliente", ascending=True)` on normalized rows
(line 100). pandas' default `kind='quicksort'` guarantees a sorted result
that is a permutation of the input but documents no tie order (it is not a
stable kind); the embedding has to pick one concrete executable sort, and
no claim theorem relies on its tie order — only on sortedness and on the
result being a permutation of the input, which every `sort_values` kind
guarantees. -/
def sortInterim (l : List Interim) : List Interim :=
  List.insertionSort (fun a b => strLe a.cliente b.cliente = true) l

/-- `sort_values(by="Cliente")` on records (line 206); see `sortInterim`
on tie order: only sortedness and permutation of this model are used by
the theorems. -/
def sortRec (l : List Rec) : List Rec :=
  List.insertionSort (fun a b => strLe a.cliente b.cliente = true) l

/-- `reset_index(drop=True)` followed by `df["Consecutivo"] = df.index + 1`
(lines 103-104): number the rows `n, n+1, ...` positionally, producing
canonical records. -/
def renumberFrom (n : Nat) : List Interim → List Rec
  | [] => []
  | r :: rest =>
      { consecutivo := n, cliente := r.cliente, fecha := r.fecha,
        valor := r.valor, pagado := r.pagado } :: renumberFrom (n + 1) rest

/-- Same re-numbering on already-canonical records (lines 207-208). -/
def resequenceFrom (n : Nat) : List Rec → List Rec
  | [] => []
  | r :: rest => { r with consecutivo := n } :: resequenceFrom (n + 1) rest

/-- The rows of the load pass after normalization, `dropna(how="all")` and
the paid filter (lines 72-97), i.e. the input of the sort step. -/
def preSortLoad (raw : List RawRow) : List Interim :=
  (dropnaAll (raw.map normRow)).filter (fun r => !r.pagado)

/-- The whole load/cleanup pass (lines 67-104). -/
def loadClean (raw : List RawRow) : List Rec :=
  renumberFrom 1 (sortInterim (preSortLoad raw))

/-- The insert handler (lines 143-157): the form value arrives already
`strip().upper()`ed (line 125); an empty client is rejected with the
script's error message and nothing is changed, otherwise a row with
`Consecutivo = len(df) + 1` and `Pagado = False` is appended and saved. -/
def insertHandler (df : List Rec) (clienteInput : String) (fecha : Int)
    (valor : ℚ) : Except String (List Rec) :=
  let cliente := normCliente clienteInput
  if cliente = "" then Except.error "El nombre del cliente es obligatorio."
  else Except.ok (df ++
    [{ consecutivo := df.length + 1, cliente := cliente, fecha := some fecha,
       valor := some valor, pagado := false }])

/-- Index of the first element satisfying `p`
(`df[df["Consecutivo"] == c].index` then `idx[0]`, lines 197-199; the
loaded table's labels are its positions after `reset_index`). -/
def firstIdx (p : α → Bool) : List α → Option Nat
  | [] => none
  | a :: as => if p a then some 0 else (firstIdx p as).map (fun i => i + 1)

/-- Replace the element at position `i` by `f` of it (out-of-range: no-op). -/
def listModify (f : α → α) : Nat → List α → List α
  | _, [] => []
  | 0, a :: as => f a :: as
  | n + 1, a :: as => a :: listModify f n as

/-- Overwrite one matched record from an edited row (lines 200-203):
`Cliente` re-normalized with `.strip().upper()`, `Fecha`/`Valor`/`Pagado`
taken from the editor; `Consecutivo` untouched. -/
def applyEdit (r : Rec) (e : EditedRow) : Rec :=
  { r with cliente := normCliente e.cliente, fecha := some e.fecha,
           valor := some e.valor, pagado := e.pagado }

/-- The merge loop of the bulk-edit save handler (lines 194-203): starting
from a copy of the full prior table, each edited row is matched against the
*original* table by `Consecutivo`; on a match the record at that position
is overwritten, otherwise the edited row has no effect. -/
def bulkMerge (df : List Rec) (edited : List EditedRow) : List Rec :=
  edited.foldl
    (fun acc e =>
      match firstIdx (fun r => r.consecutivo == e.consecutivo) df with
      | some i => listModify (fun r => applyEdit r e) i acc
      | none => acc)
    df

/-- The merged table after the paid filter (line 205), i.e. the input of
the bulk handler's sort step. -/
def preSortBulk (df : List Rec) (edited : List EditedRow) : List Rec :=
  (bulkMerge df edited).filter (fun r => !r.pagado)

/-- The whole bulk-edit save handler (lines 193-208). -/
def bulkSave (df : List Rec) (edited : List EditedRow) : List Rec :=
  resequenceFrom 1 (sortRec (preSortBulk df edited))

/-- The sorted distinct client names of the active set — the group keys of
`df.groupby("Cliente")` (line 222). -/
def clientKeys (df : List Rec) : List String :=
  List.insertionSort (fun a b => strLe a b = true) (df.map (fun r => r.cliente)).dedup

/-- Per-client subtotal: `groupby("Cliente")["Valor"].sum()` for one key
(pandas `sum` skips `NaN`, so a null amount contributes 0). -/
def subtotal (df : List Rec) (k : String) : ℚ :=
  ((df.filter (fun r => r.cliente == k)).map (fun r => r.valor.getD 0)).sum

/-- The grand total `df["Valor"].sum()` (line 228). -/
def granTotal (df : List Rec) : ℚ :=
  (df.map (fun r => r.valor.getD 0)).sum

/-- `aggregate`: the ordered per-client totals plus the grand total
(lines 219-229). -/
def aggregate (df : List Rec) : List (String × ℚ) × ℚ :=
  ((clientKeys df).map (fun k => (k, subtotal df k)), granTotal df)

/-- The mutable payload of a record — everything except the derived
`Consecutivo`. -/
def core (r : Rec) : String × Option Int × Option ℚ × Bool :=
  (r.cliente, r.fecha, r.valor, r.pagado)

/-- The payload of an interim row, matching `core` after re-numbering. -/
def coreI (r : Interim) : String × Option Int × Option ℚ × Bool :=
  (r.cliente, r.fecha, r.valor, r.pagado)

/-! ### Properties of the code-point comparison -/

lemma lexLe_refl : ∀ l : List Char, lexLe l l = true := by
  intro l
  induction l with
  | nil => rfl
  | cons a as ih => simp [lexLe, lt_irrefl, ih]

lemma strLe_refl (s : String) : strLe s s = true :=
  lexLe_refl s.data

lemma lexLe_total : ∀ x y : List Char, lexLe x y = true ∨ lexLe y x = true := by
  intro x
  induction x with
  | nil => intro y; left; rfl
  | cons a as ih =>
      intro y
      cases y with
      | nil => right; rfl
      | cons b bs =>
          rcases lt_trichotomy a b with h | h | h
          · left; simp [lexLe, h]
          · subst h
            rcases ih bs with h2 | h2
            · left; simp [lexLe, lt_irrefl, h2]
            · right; simp [lexLe, lt_irrefl, h2]
          · right; simp [lexLe, h]

lemma strLe_total (a b : String) : strLe a b = true ∨ strLe b a = true :=
  lexLe_total a.data b.data

lemma lexLe_trans :
    ∀ x y z : List Char, lexLe x y = true → lexLe y z = true → lexLe x z = true := by
  intro x
  induction x with
  | nil => intro y z _ _; rfl
  | cons a as ih =>
      intro y z h1 h2
      cases y with
      | nil => simp [lexLe] at h1
      | cons b bs =>
          cases z with
          | nil => simp [lexLe] at h2
          | cons c cs =>
              rcases lt_trichotomy a b with hab | hab | hab
              · rcases lt_trichotomy b c with hbc | hbc | hbc
                · simp [lexLe, lt_trans hab hbc]
                · subst hbc; simp [lexLe, hab]
                · exfalso; simp [lexLe, hbc, asymm hbc] at h2
              · subst hab
                rcases lt_trichotomy a c with hac | hac | hac
                · simp [lexLe, hac]
                · subst hac
                  simp only [lexLe, lt_irrefl, if_false] at h1 h2 ⊢
                  exact ih bs cs h1 h2
                · exfalso; simp [lexLe, hac, asymm hac] at h2
              · exfalso; simp [lexLe, hab, asymm hab] at h1

lemma strLe_trans {a b c : String} (h1 : strLe a b = true) (h2 : strLe b c = true) :
    strLe a c = true :=
  lexLe_trans a.data b.data c.data h1 h2

instance : IsTotal Rec (fun a b => strLe a.cliente b.cliente = true) :=
  ⟨fun a b => strLe_total a.cliente b.cliente⟩

instance : IsTrans Rec (fun a b => strLe a.cliente b.cliente = true) :=
  ⟨fun _ _ _ h1 h2 => strLe_trans h1 h2⟩

instance : IsTotal Interim (fun a b => strLe a.cliente b.cliente = true) :=
  ⟨fun a b => strLe_total a.cliente b.cliente⟩

instance : IsTrans Interim (fun a b => strLe a.cliente b.cliente = true) :=
  ⟨fun _ _ _ h1 h2 => strLe_trans h1 h2⟩

instance : IsTotal String (fun a b => strLe a b = true) :=
  ⟨fun a b => strLe_total a b⟩

instance : IsTrans String (fun a b => strLe a b = true) :=
  ⟨fun _ _ _ h1 h2 => strLe_trans h1 h2⟩

/-! ### Re-numbering lemmas -/

lemma renumberFrom_length : ∀ (n : Nat) (l : List Interim),
    (renumberFrom n l).length = l.length := by
  intro n l
  induction l generalizing n with
  | nil => rfl
  | cons r rest ih => simp [renumberFrom, ih]

lemma resequenceFrom_length : ∀ (n : Nat) (l : List Rec),
    (resequenceFrom n l).length = l.length := by
  intro n l
  induction l generalizing n with
  | nil => rfl
  | cons r rest ih => simp [resequenceFrom, ih]

lemma renumberFrom_map_consecutivo : ∀ (n : Nat) (l : List Interim),
    (renumberFrom n l).map (fun r => r.consecutivo) = List.range' n l.length := by
  intro n l
  induction l generalizing n with
  | nil => rfl
  | cons r rest ih => simp [renumberFrom, List.range'_succ, ih]

lemma resequenceFrom_map_consecutivo : ∀ (n : Nat) (l : List Rec),
    (resequenceFrom n l).map (fun r => r.consecutivo) = List.range' n l.length := by
  intro n l
  induction l generalizing n with
  | nil => rfl
  | cons r rest ih => simp [resequenceFrom, List.range'_succ, ih]

lemma renumberFrom_map_cliente : ∀ (n : Nat) (l : List Interim),
    (renumberFrom n l).map (fun r => r.cliente) = l.map (fun r => r.cliente) := by
  intro n l
  induction l generalizing n with
  | nil => rfl
  | cons r rest ih => simp [renumberFrom, ih]

lemma resequenceFrom_map_cliente : ∀ (n : Nat) (l : List Rec),
    (resequenceFrom n l).map (fun r => r.cliente) = l.map (fun r => r.cliente) := by
  intro n l
  induction l generalizing n with
  | nil => rfl
  | cons r rest ih => simp [resequenceFrom, ih]

lemma renumberFrom_map_pagado : ∀ (n : Nat) (l : List Interim),
    (renumberFrom n l).map (fun r => r.pagado) = l.map (fun r => r.pagado) := by
  intro n l
  induction l generalizing n with
  | nil => rfl
  | cons r rest ih => simp [renumberFrom, ih]

lemma resequenceFrom_map_pagado : ∀ (n : Nat) (l : List Rec),
    (resequenceFrom n l).map (fun r => r.pagado) = l.map (fun r => r.pagado) := by
  intro n l
  induction l generalizing n with
  | nil => rfl
  | cons r rest ih => simp [resequenceFrom, ih]

lemma renumberFrom_map_core : ∀ (n : Nat) (l : List Interim),
    (renumberFrom n l).map core = l.map coreI := by
  intro n l
  induction l generalizing n with
  | nil => rfl
  | cons r rest ih => simp [renumberFrom, core, coreI, ih]

lemma resequenceFrom_map_core : ∀ (n : Nat) (l : List Rec),
    (resequenceFrom n l).map core = l.map core := by
  intro n l
  induction l generalizing n with
  | nil => rfl
  | cons r rest ih => simp [resequenceFrom, core, ih]

/-! ### Bulk-merge machinery -/

lemma listModify_length {α : Type} (f : α → α) : ∀ (i : Nat) (l : List α),
    (listModify f i l).length = l.length := by
  intro i l
  induction l generalizing i with
  | nil => cases i <;> rfl
  | cons a as ih =>
      cases i with
      | zero => rfl
      | succ n => simp [listModify, ih]

lemma listModify_getElem_ne {α : Type} (f : α → α) :
    ∀ (i j : Nat) (l : List α), j ≠ i → (listModify f i l)[j]? = l[j]? := by
  intro i j l
  induction l generalizing i j with
  | nil => intro _; cases i <;> rfl
  | cons a as ih =>
      intro hji
      cases i with
      | zero =>
          cases j with
          | zero => exact absurd rfl hji
          | succ m => simp [listModify]
      | succ n =>
          cases j with
          | zero => simp [listModify]
          | succ m => simp [listModify, ih n m (fun h => hji (by omega))]

lemma listModify_getElem_eq {α : Type} (f : α → α) :
    ∀ (i : Nat) (l : List α), (listModify f i l)[i]? = (l[i]?).map f := by
  intro i l
  induction l generalizing i with
  | nil => cases i <;> rfl
  | cons a as ih =>
      cases i with
      | zero => simp [listModify]
      | succ n => simp [listModify, ih n]

lemma firstIdx_some {α : Type} (p : α → Bool) :
    ∀ (l : List α) (i : Nat), firstIdx p l = some i →
      ∃ a, l[i]? = some a ∧ p a = true := by
  intro l
  induction l with
  | nil => intro i h; simp [firstIdx] at h
  | cons a as ih =>
      intro i h
      by_cases hp : p a = true
      · rw [firstIdx, if_pos hp] at h
        cases h
        exact ⟨a, by simp, hp⟩
      · rw [firstIdx, if_neg hp] at h
        rcases Option.map_eq_some'.mp h with ⟨j, hj, rfl⟩
        rcases ih j hj with ⟨b, hb, hpb⟩
        exact ⟨b, by simpa using hb, hpb⟩

lemma firstIdx_eq_of_nodup :
    ∀ (df : List Rec) (c : Nat) (i : Nat) (r : Rec),
      (df.map (fun x => x.consecutivo)).Nodup →
      df[i]? = some r → r.consecutivo = c →
      firstIdx (fun x => x.consecutivo == c) df = some i := by
  intro df
  induction df with
  | nil => intro c i r _ h _; simp at h
  | cons a as ih =>
      intro c i r hnd hget hc
      rw [List.map_cons, List.nodup_cons] at hnd
      rcases hnd with ⟨hna, hnas⟩
      cases i with
      | zero =>
          have : a = r := by simpa using hget
          subst this
          rw [firstIdx, if_pos (by simpa using hc)]
      | succ j =>
          have hget' : as[j]? = some r := by simpa using hget
          have hrmem : r ∈ as := List.getElem?_mem hget'
          have hpa : (a.consecutivo == c) = false := by
            rw [beq_eq_false_iff_ne]
            intro hac
            apply hna
            rw [hac, ← hc]
            exact List.mem_map_of_mem (fun x => x.consecutivo) hrmem
          rw [firstIdx, if_neg (by simp [hpa]), ih c j r hnas hget' hc]
          rfl

/-- One step of the bulk-merge fold (lines 196-203). -/
def bulkStep (df : List Rec) (acc : List Rec) (e : EditedRow) : List Rec :=
  match firstIdx (fun r => r.consecutivo == e.consecutivo) df with
  | some i => listModify (fun r => applyEdit r e) i acc
  | none => acc

lemma bulkMerge_eq_foldl (df : List Rec) (edited : List EditedRow) :
    bulkMerge df edited = edited.foldl (bulkStep df) df := rfl

lemma bulkStep_length (df acc : List Rec) (e : EditedRow) :
    (bulkStep df acc e).length = acc.length := by
  rw [bulkStep]
  cases firstIdx (fun r => r.consecutivo == e.consecutivo) df with
  | none => rfl
  | some i => exact listModify_length _ i acc

lemma bulkFold_length (df : List Rec) :
    ∀ (edited : List EditedRow) (acc : List Rec),
      (edited.foldl (bulkStep df) acc).length = acc.length := by
  intro edited
  induction edited with
  | nil => intro acc; rfl
  | cons e rest ih =>
      intro acc
      rw [List.foldl_cons, ih, bulkStep_length]

lemma bulkStep_consecutivo (df acc : List Rec) (e : EditedRow) (j : Nat) :
    ((bulkStep df acc e)[j]?).map (fun r => r.consecutivo)
      = (acc[j]?).map (fun r => r.consecutivo) := by
  rw [bulkStep]
  cases firstIdx (fun r => r.consecutivo == e.consecutivo) df with
  | none => rfl
  | some i =>
      by_cases hji : j = i
      · subst hji
        rw [listModify_getElem_eq]
        cases acc[j]? with
        | none => rfl
        | some r => simp [applyEdit]
      · rw [listModify_getElem_ne _ i j acc hji]

lemma bulkFold_untouched (df : List Rec) :
    ∀ (edited : List EditedRow) (acc : List Rec) (i : Nat) (r : Rec),
      df[i]? = some r →
      (∀ e ∈ edited, e.consecutivo ≠ r.consecutivo) →
      (edited.foldl (bulkStep df) acc)[i]? = acc[i]? := by
  intro edited
  induction edited with
  | nil => intro acc i r _ _; rfl
  | cons e rest ih =>
      intro acc i r hget hne
      rw [List.foldl_cons, ih (bulkStep df acc e) i r hget
        (fun e' he' => hne e' (List.mem_cons_of_mem e he'))]
      rw [bulkStep]
      cases hfi : firstIdx (fun x => x.consecutivo == e.consecutivo) df with
      | none => rfl
      | some j =>
          have hji : i ≠ j := by
            intro hij
            subst hij
            rcases firstIdx_some _ df i hfi with ⟨a, ha, hpa⟩
            have : a = r := by rw [hget] at ha; exact (Option.some.inj ha).symm
            subst this
            exact hne e (List.mem_cons_self e rest) ((beq_iff_eq.mp hpa).symm)
          exact listModify_getElem_ne _ j i acc hji

lemma applyEdit_congr {x r : Rec} (e : EditedRow) (h : x.consecutivo = r.consecutivo) :
    applyEdit x e = applyEdit r e := by
  simp [applyEdit, h]

lemma bulkFold_matched (df : List Rec)
    (hdf : (df.map (fun x => x.consecutivo)).Nodup) :
    ∀ (edited : List EditedRow) (acc : List Rec),
      (edited.map (fun e => e.consecutivo)).Nodup →
      (∀ j : Nat, (acc[j]?).map (fun r => r.consecutivo)
          = (df[j]?).map (fun r => r.consecutivo)) →
      ∀ e ∈ edited, ∀ (i : Nat) (r : Rec), df[i]? = some r →
        r.consecutivo = e.consecutivo →
        (edited.foldl (bulkStep df) acc)[i]? = some (applyEdit r e) := by
  intro edited
  induction edited with
  | nil => intro acc _ _ e he; exact absurd he (List.not_mem_nil e)
  | cons e0 rest ih =>
      intro acc hed hinv e he i r hget hc
      rw [List.map_cons, List.nodup_cons] at hed
      rcases hed with ⟨hne0, hnrest⟩
      rcases List.mem_cons.mp he with he | he
      · subst he
        have hfi : firstIdx (fun x => x.consecutivo == e.consecutivo) df = some i :=
          firstIdx_eq_of_nodup df e.consecutivo i r hdf hget hc
        have hstep : (bulkStep df acc e)[i]? = some (applyEdit r e) := by
          rw [bulkStep, hfi, listModify_getElem_eq]
          have := hinv i
          rw [hget] at this
          cases hacc : acc[i]? with
          | none => rw [hacc] at this; simp at this
          | some x =>
              rw [hacc] at this
              simp only [Option.map_some'] at this ⊢
              rw [applyEdit_congr e (by simpa using this)]
        rw [List.foldl_cons,
          bulkFold_untouched df rest (bulkStep df acc e) i r hget ?hrest, hstep]
        case hrest =>
          intro e' he' heq
          exact hne0 (hc ▸ heq ▸ List.mem_map_of_mem (fun x => x.consecutivo) he')
      · have hinv' : ∀ j : Nat, ((bulkStep df acc e0)[j]?).map (fun r => r.consecutivo)
            = (df[j]?).map (fun r => r.consecutivo) := by
          intro j
          rw [bulkStep_consecutivo, hinv j]
        rw [List.foldl_cons]
        exact ih (bulkStep df acc e0) hnrest hinv' e he i r hget hc

/-! ### Membership through the pipeline -/

lemma pagado_of_mem_renumberFrom {n : Nat} {l : List Interim} {r : Rec}
    (h : r ∈ renumberFrom n l) : ∃ x ∈ l, x.pagado = r.pagado := by
  have hmap : r.pagado ∈ (renumberFrom n l).map (fun r => r.pagado) :=
    List.mem_map_of_mem _ h
  rw [renumberFrom_map_pagado] at hmap
  rcases List.mem_map.mp hmap with ⟨x, hx, hpx⟩
  exact ⟨x, hx, hpx⟩

lemma pagado_of_mem_resequenceFrom {n : Nat} {l : List Rec} {r : Rec}
    (h : r ∈ resequenceFrom n l) : ∃ x ∈ l, x.pagado = r.pagado := by
  have hmap : r.pagado ∈ (resequenceFrom n l).map (fun r => r.pagado) :=
    List.mem_map_of_mem _ h
  rw [resequenceFrom_map_pagado] at hmap
  rcases List.mem_map.mp hmap with ⟨x, hx, hpx⟩
  exact ⟨x, hx, hpx⟩

/-! ### Aggregation lemmas -/

lemma subtotal_eq_granTotal_filter (df : List Rec) (k : String) :
    subtotal df k = granTotal (df.filter (fun r => r.cliente == k)) := rfl

lemma granTotal_filter_partition (p : Rec → Bool) (df : List Rec) :
    granTotal (df.filter p) + granTotal (df.filter (fun r => !p r)) = granTotal df := by
  have hperm : List.Perm (df.filter p ++ df.filter (fun r => !p r)) df :=
    List.filter_append_perm p df
  have := (hperm.map (fun r => r.valor.getD 0)).sum_eq
  simpa [granTotal, List.map_append, List.sum_append] using this

lemma sum_subtotals_of_cover :
    ∀ (ks : List String) (df : List Rec), ks.Nodup →
      (∀ r ∈ df, r.cliente ∈ ks) →
      (ks.map (subtotal df)).sum = granTotal df := by
  intro ks
  induction ks with
  | nil =>
      intro df _ hcov
      have : df = [] := by
        cases df with
        | nil => rfl
        | cons r rest => exact absurd (hcov r (List.mem_cons_self r rest)) (List.not_mem_nil _)
      subst this
      simp [granTotal]
  | cons k ks ih =>
      intro df hnd hcov
      rcases List.nodup_cons.mp hnd with ⟨hk, hks⟩
      have hsub : ∀ k' ∈ ks, subtotal df k'
          = subtotal (df.filter (fun r => !(r.cliente == k))) k' := by
        intro k' hk'
        have hne : k' ≠ k := fun h => hk (h ▸ hk')
        have hfil : df.filter (fun a => (a.cliente == k') && !(a.cliente == k))
            = df.filter (fun r => r.cliente == k') := by
          apply List.filter_congr
          intro r _
          cases hr : r.cliente == k'
          · simp [hr]
          · have hrk : r.cliente = k' := by simpa [beq_iff_eq] using hr
            simp [hrk, hne]
        rw [subtotal, subtotal, List.filter_filter, hfil]
      have hcov' : ∀ r ∈ df.filter (fun r => !(r.cliente == k)), r.cliente ∈ ks := by
        intro r hr
        rcases List.mem_filter.mp hr with ⟨hrdf, hrk⟩
        rcases List.mem_cons.mp (hcov r hrdf) with h | h
        · exfalso; simp [h] at hrk
        · exact h
      calc ((k :: ks).map (subtotal df)).sum
          = subtotal df k + (ks.map (subtotal df)).sum := by simp
        _ = subtotal df k
              + (ks.map (subtotal (df.filter (fun r => !(r.cliente == k))))).sum := by
            rw [List.map_congr_left hsub]
        _ = subtotal df k + granTotal (df.filter (fun r => !(r.cliente == k))) := by
            rw [ih _ hks hcov']
        _ = granTotal df := by
            rw [subtotal_eq_granTotal_filter]
            exact granTotal_filter_partition (fun r => r.cliente == k) df

/-! ## Claim theorems -/

/-- Claim C2: after any reconcile pass — the load/cleanup pass, the
bulk-table-edit save, or an insert into a paid-free active set — no
resulting record has `paid = true`. -/
theorem reconcile_no_paid :
    (∀ raw : List RawRow, ∀ r ∈ loadClean raw, r.pagado = false)
    ∧ (∀ (df : List Rec) (edited : List EditedRow),
        ∀ r ∈ bulkSave df edited, r.pagado = false)
    ∧ (∀ (df : List Rec) (c : String) (f : Int) (v : ℚ) (res : List Rec),
        (∀ r ∈ df, r.pagado = false) →
        insertHandler df c f v = Except.ok res →
        ∀ r ∈ res, r.pagado = false) := by
  refine ⟨?_, ?_, ?_⟩
  · intro raw r hr
    rw [loadClean] at hr
    rcases pagado_of_mem_renumberFrom hr with ⟨x, hx, hpx⟩
    rw [sortInterim] at hx
    have hx' : x ∈ preSortLoad raw :=
      (List.perm_insertionSort _ _).mem_iff.mp hx
    rcases List.mem_filter.mp hx' with ⟨_, hxp⟩
    rw [← hpx]
    simpa using hxp
  · intro df edited r hr
    rw [bulkSave] at hr
    rcases pagado_of_mem_resequenceFrom hr with ⟨x, hx, hpx⟩
    rw [sortRec] at hx
    have hx' : x ∈ preSortBulk df edited :=
      (List.perm_insertionSort _ _).mem_iff.mp hx
    rcases List.mem_filter.mp hx' with ⟨_, hxp⟩
    rw [← hpx]
    simpa using hxp
  · intro df c f v res hdf hok r hr
    by_cases hc : normCliente c = ""
    · simp [insertHandler, hc] at hok
    · simp only [insertHandler, if_neg hc] at hok
      rcases Except.ok.inj hok with rfl
      rcases List.mem_append.mp hr with h | h
      · exact hdf r h
      · rcases List.mem_singleton.mp h with rfl
        rfl

/-- Claim C2 witness: a concrete insert into an empty (hence paid-free)
active set yields a record with `paid = false`. -/
theorem reconcile_no_paid_witness :
    ({ consecutivo := 1, cliente := "B", fecha := some 0, valor := some 1,
       pagado := false } : Rec).pagado = false :=
  reconcile_no_paid.2.2 [] "B" 0 1
    [{ consecutivo := 1, cliente := "B", fecha := some 0, valor := some 1,
       pagado := false }]
    (fun r hr => absurd hr (List.not_mem_nil r)) rfl
    { consecutivo := 1, cliente := "B", fecha := some 0, valor := some 1,
      pagado := false }
    (List.mem_singleton.mpr rfl)

/-- Claim C4: after the load pass and after the bulk-edit save the
`Consecutivo` column is exactly `1..N` in order; the insert handler applied
to a canonically numbered table persists a table numbered `1..N+1`. -/
theorem reconcile_sequence_dense :
    (∀ raw : List RawRow,
        (loadClean raw).map (fun r => r.consecutivo)
          = List.range' 1 (loadClean raw).length)
    ∧ (∀ (df : List Rec) (edited : List EditedRow),
        (bulkSave df edited).map (fun r => r.consecutivo)
          = List.range' 1 (bulkSave df edited).length)
    ∧ (∀ (df : List Rec) (c : String) (f : Int) (v : ℚ) (res : List Rec),
        df.map (fun r => r.consecutivo) = List.range' 1 df.length →
        insertHandler df c f v = Except.ok res →
        res.map (fun r => r.consecutivo) = List.range' 1 res.length) := by
  refine ⟨?_, ?_, ?_⟩
  · intro raw
    rw [loadClean, renumberFrom_map_consecutivo, renumberFrom_length]
  · intro df edited
    rw [bulkSave, resequenceFrom_map_consecutivo, resequenceFrom_length]
  · intro df c f v res hdf hok
    by_cases hc : normCliente c = ""
    · simp [insertHandler, hc] at hok
    · simp only [insertHandler, if_neg hc] at hok
      rcases Except.ok.inj hok with rfl
      rw [List.map_append, hdf]
      have hlen : (df ++
          [({ consecutivo := df.length + 1, cliente := normCliente c,
              fecha := some f, valor := some v, pagado := false } : Rec)]).length
          = df.length + 1 := by simp
      rw [hlen, List.range'_concat]
      have : 1 + 1 * df.length = df.length + 1 := by omega
      rw [this]
      rfl

/-- Claim C4 witness: inserting into the empty (trivially canonical) table
gives the sequence column `[1]` = `1..1`. -/
theorem reconcile_sequence_dense_witness :
    ([{ consecutivo := 1, cliente := "B", fecha := some 0, valor := some 1,
        pagado := false }] : List Rec).map (fun r => r.consecutivo)
      = List.range' 1 1 :=
  reconcile_sequence_dense.2.2 [] "B" 0 1
    [{ consecutivo := 1, cliente := "B", fecha := some 0, valor := some 1,
       pagado := false }]
    rfl rfl

/-- Claim C9: an insert whose client is empty after normalization is
rejected with the script's validation error and no new set is produced
(the handler returns before touching or saving the table); an insert with
a non-empty normalized client appends exactly one new unpaid record. -/
theorem insert_validation (df : List Rec) (c : String) (f : Int) (v : ℚ) :
    (normCliente c = "" →
      insertHandler df c f v
        = Except.error "El nombre del cliente es obligatorio.")
    ∧ (normCliente c ≠ "" →
      insertHandler df c f v = Except.ok (df ++
        [{ consecutivo := df.length + 1, cliente := normCliente c,
           fecha := some f, valor := some v, pagado := false }])) := by
  constructor
  · intro h
    simp [insertHandler, h]
  · intro h
    simp [insertHandler, h]

/-- Claim C9 witness: a whitespace-only client is rejected; `" ana "` is
accepted and appended as `"ANA"`. -/
theorem insert_validation_witness :
    insertHandler [] "   " 0 5 = Except.error "El nombre del cliente es obligatorio."
    ∧ insertHandler [] " ana " 0 5 = Except.ok
        [{ consecutivo := 1, cliente := "ANA", fecha := some 0, valor := some 5,
           pagado := false }] := by
  constructor
  · exact (insert_validation [] "   " 0 5).1 (by decide)
  · have h := (insert_validation [] " ana " 0 5).2 (by decide)
    rw [h]
    rfl

/-- Claim C6 (code bug): `dropna(how="all")` runs only after `Cliente` has
been forced to a string and `Pagado` to a boolean, so it is a no-op on
every interim table — a fully empty raw row is NOT dropped but survives
the whole load pass as a defaulted record. -/
theorem empty_row_retained :
    (∀ l : List Interim, dropnaAll l = l)
    ∧ loadClean [⟨Cell.na, Cell.na, Cell.na, Cell.na, Cell.na⟩]
        = [{ consecutivo := 1, cliente := "NAN", fecha := none, valor := none,
             pagado := false }] := by
  constructor
  · intro l
    rw [dropnaAll]
    apply List.filter_eq_self.mpr
    intro r _
    simp [rowAllNA, strIsNA, boolIsNA]
  · decide

/-- Claim C10: a missing/null raw client normalizes to the literal string
`"NAN"` (`str(nan).strip().upper()`), and such records are then sorted and
aggregated as an ordinary client named `"NAN"`. -/
theorem null_client_becomes_nan :
    (∀ r : RawRow, r.cliente = Cell.na → (normRow r).cliente = "NAN")
    ∧ aggregate (loadClean
        [⟨Cell.na, Cell.na, Cell.na, Cell.num 3, Cell.na⟩,
         ⟨Cell.na, Cell.na, Cell.na, Cell.num 4, Cell.na⟩])
        = ([("NAN", 7)], 7) := by
  constructor
  · intro r h
    show normCliente (cellToStr r.cliente) = "NAN"
    rw [h]
    decide
  · have hload : loadClean
        [⟨Cell.na, Cell.na, Cell.na, Cell.num 3, Cell.na⟩,
         ⟨Cell.na, Cell.na, Cell.na, Cell.num 4, Cell.na⟩]
        = [{ consecutivo := 1, cliente := "NAN", fecha := none, valor := some 3,
             pagado := false },
           { consecutivo := 2, cliente := "NAN", fecha := none, valor := some 4,
             pagado := false }] := by decide
    have hkeys : clientKeys
        [{ consecutivo := 1, cliente := "NAN", fecha := none, valor := some 3,
           pagado := false },
         { consecutivo := 2, cliente := "NAN", fecha := none, valor := some 4,
           pagado := false }] = ["NAN"] := by decide
    rw [hload, aggregate, hkeys]
    simp only [List.map_cons, List.map_nil, Prod.mk.injEq, List.cons.injEq, and_true]
    norm_num [subtotal, granTotal, List.filter_cons]

/-- Claim C10 witness: the fully null raw row's client normalizes to
`"NAN"`. -/
theorem null_client_becomes_nan_witness :
    (normRow ⟨Cell.na, Cell.na, Cell.na, Cell.na, Cell.na⟩).cliente = "NAN" :=
  null_client_becomes_nan.1 ⟨Cell.na, Cell.na, Cell.na, Cell.na, Cell.na⟩ rfl

/-- Claim C3 (amended): after the load pass and after the bulk-edit save
the records are in non-decreasing order of normalized client, and the
result is a permutation, payload for payload, of the records that entered
the sort (the re-numbering touches only `Consecutivo`, so payloads are
compared). No tie order among equal normalized clients is asserted —
`sort_values`' default quicksort guarantees none — and the claim's "null
clients sort last" part fails: no null client can reach the sort, see the
counterexample. -/
theorem reconcile_sorted_perm :
    (∀ raw : List RawRow,
        List.Pairwise (fun a b : Rec => strLe a.cliente b.cliente = true)
          (loadClean raw)
        ∧ List.Perm ((loadClean raw).map core) ((preSortLoad raw).map coreI))
    ∧ (∀ (df : List Rec) (edited : List EditedRow),
        List.Pairwise (fun a b : Rec => strLe a.cliente b.cliente = true)
          (bulkSave df edited)
        ∧ List.Perm ((bulkSave df edited).map core)
            ((preSortBulk df edited).map core)) := by
  constructor
  · intro raw
    constructor
    · have hs : List.Pairwise (fun a b : Interim => strLe a.cliente b.cliente = true)
          (sortInterim (preSortLoad raw)) :=
        List.sorted_insertionSort _ _
      have h1 : (loadClean raw).map (fun r => r.cliente)
          = (sortInterim (preSortLoad raw)).map (fun r => r.cliente) := by
        rw [loadClean]
        exact renumberFrom_map_cliente 1 _
      have h2 : List.Pairwise (fun a b : String => strLe a b = true)
          ((loadClean raw).map (fun r => r.cliente)) := by
        rw [h1]
        exact List.pairwise_map.mpr hs
      exact List.pairwise_map.mp h2
    · rw [loadClean, renumberFrom_map_core, sortInterim]
      exact (List.perm_insertionSort _ _).map coreI
  · intro df edited
    constructor
    · have hs : List.Pairwise (fun a b : Rec => strLe a.cliente b.cliente = true)
          (sortRec (preSortBulk df edited)) :=
        List.sorted_insertionSort _ _
      have h1 : (bulkSave df edited).map (fun r => r.cliente)
          = (sortRec (preSortBulk df edited)).map (fun r => r.cliente) := by
        rw [bulkSave]
        exact resequenceFrom_map_cliente 1 _
      have h2 : List.Pairwise (fun a b : String => strLe a b = true)
          ((bulkSave df edited).map (fun r => r.cliente)) := by
        rw [h1]
        exact List.pairwise_map.mpr hs
      exact List.pairwise_map.mp h2
    · rw [bulkSave, resequenceFrom_map_core, sortRec]
      exact (List.perm_insertionSort _ _).map core

/-- Claim C3 counterexample: a raw row with a null client does NOT sort
after non-null clients — it becomes the ordinary string `"NAN"` and here
ends up first, before `"ZOE"`. -/
theorem null_client_not_sorted_last :
    ([⟨Cell.na, Cell.na, Cell.na, Cell.num 1, Cell.na⟩,
      ⟨Cell.na, Cell.text "ZOE", Cell.na, Cell.num 2, Cell.na⟩]
        : List RawRow).map (fun r => r.cliente) = [Cell.na, Cell.text "ZOE"]
    ∧ (loadClean [⟨Cell.na, Cell.na, Cell.na, Cell.num 1, Cell.na⟩,
        ⟨Cell.na, Cell.text "ZOE", Cell.na, Cell.num 2, Cell.na⟩]).map
          (fun r => (r.cliente, r.valor))
      = [("NAN", some 1), ("ZOE", some 2)] := by decide

/-- Claim C7 (amended): client normalization only trims leading/trailing
whitespace and upper-cases; it does not collapse internal whitespace runs,
so `"  juan   pérez "` and `"JUAN PÉREZ"` normalize to different canonical
strings. Leading whitespace is irrelevant, as the general conjunct shows. -/
theorem client_normalization_amended :
    normCliente "  juan   pérez " = "JUAN   PÉREZ"
    ∧ normCliente "JUAN PÉREZ" = "JUAN PÉREZ"
    ∧ ∀ s : String, normCliente ("  " ++ s) = normCliente s := by
  refine ⟨by decide, by decide, ?_⟩
  intro s
  have hdata : ("  " ++ s).data = ' ' :: ' ' :: s.data := by
    rw [String.data_append]
    rfl
  have hsp : pyIsSpace ' ' = true := by decide
  simp [normCliente, pyStrip, hdata, List.dropWhile_cons, hsp]

/-- Claim C7 counterexample: the two spellings the claim requires to
coincide normalize to different strings (internal whitespace survives). -/
theorem client_normalization_counterexample :
    normCliente "  juan   pérez " ≠ normCliente "JUAN PÉREZ" := by decide

/-- Claim C5 (amended): `pd.to_numeric(errors="coerce")` sends a missing
or unparseable amount to null (`NaN`) — not to 0 — and passes parsed
values through unchanged, including negative ones; no non-negativity is
enforced during normalization. -/
theorem amount_coercion_amended :
    (∀ r : RawRow, (normRow r).valor = cellToNumeric r.valor)
    ∧ (∀ q : ℚ, q < 0 → cellToNumeric (Cell.num q) = some q)
    ∧ cellToNumeric Cell.na = none
    ∧ (∀ s : String, pyParseNum s = none → cellToNumeric (Cell.text s) = none) :=
  ⟨fun _ => rfl, fun _ _ => rfl, rfl, fun _ h => h⟩

/-- Claim C5 witness: the negative amount `-5` survives coercion, and the
unparseable text `"abc"` coerces to null. -/
theorem amount_coercion_amended_witness :
    cellToNumeric (Cell.num (-5)) = some (-5)
    ∧ cellToNumeric (Cell.text "abc") = none := by
  constructor
  · exact amount_coercion_amended.2.1 (-5) (by norm_num)
  · exact amount_coercion_amended.2.2.2 "abc" (by decide)

/-- Claim C5 counterexample: a batch with amounts `"abc"` (unparseable)
and `-5` (negative) yields normalized amounts `[none, some (-5)]` — a null
amount instead of 0, and a negative amount in the result. -/
theorem amount_coercion_counterexample :
    (loadClean
        [⟨Cell.na, Cell.text "ANA", Cell.na, Cell.text "abc", Cell.na⟩,
         ⟨Cell.na, Cell.text "BEA", Cell.na, Cell.num (-5), Cell.na⟩]).map
          (fun r => r.valor) = [none, some (-5)]
    ∧ (∃ r ∈ loadClean
        [⟨Cell.na, Cell.text "ANA", Cell.na, Cell.text "abc", Cell.na⟩,
         ⟨Cell.na, Cell.text "BEA", Cell.na, Cell.num (-5), Cell.na⟩],
        r.valor = none)
    ∧ (∃ r ∈ loadClean
        [⟨Cell.na, Cell.text "ANA", Cell.na, Cell.text "abc", Cell.na⟩,
         ⟨Cell.na, Cell.text "BEA", Cell.na, Cell.num (-5), Cell.na⟩],
        r.valor = some (-5) ∧ (-5 : ℚ) < 0) := by decide

/-- Claim C8: the per-client groups are sorted by client ascending, the
per-client subtotals sum to the grand total, the grand total is the sum of
all amounts in the active set, and the empty set aggregates to 0. -/
theorem aggregate_correct :
    (aggregate ([] : List Rec)).2 = 0
    ∧ (∀ df : List Rec,
        List.Pairwise (fun a b : String => strLe a b = true)
          ((aggregate df).1.map (fun p => p.1))
        ∧ ((aggregate df).1.map (fun p => p.2)).sum = (aggregate df).2
        ∧ (aggregate df).2 = (df.map (fun r => r.valor.getD 0)).sum) := by
  refine ⟨rfl, ?_⟩
  intro df
  refine ⟨?_, ?_, rfl⟩
  · have h1 : (aggregate df).1.map (fun p => p.1) = clientKeys df := by
      simp [aggregate, List.map_map, Function.comp_def]
    rw [h1, clientKeys]
    exact List.sorted_insertionSort _ _
  · have h2 : (aggregate df).1.map (fun p => p.2) = (clientKeys df).map (subtotal df) := by
      simp [aggregate, List.map_map, Function.comp_def]
    rw [h2]
    apply sum_subtotals_of_cover
    · rw [clientKeys]
      exact (List.perm_insertionSort _ _).nodup_iff.mpr (List.nodup_dedup _)
    · intro r hr
      rw [clientKeys]
      exact (List.perm_insertionSort _ _).mem_iff.mpr
        (List.mem_dedup.mpr (List.mem_map_of_mem _ hr))

/-- Concrete prior table for the ReplaceAll claim. -/
def c1df : List Rec :=
  [⟨1, "ANA", none, some 30, false⟩, ⟨2, "LUIS", none, some 20, false⟩]

/-- Concrete edited rows for the ReplaceAll claim: row 1 is matched, row
99 matches nothing, and prior row 2 is absent from the edit set. -/
def c1ed : List EditedRow :=
  [⟨1, "ANA", 5, 30, false⟩, ⟨99, "NUEVO", 0, 5, false⟩]

/-- Claim C1 counterexample: the bulk save neither drops the prior record
with no matching incoming row (LUIS survives) nor inserts the unmatched
incoming row (no NUEVO appears). -/
theorem replaceAll_counterexample :
    bulkSave c1df c1ed
      = [⟨1, "ANA", some 5, some 30, false⟩, ⟨2, "LUIS", none, some 20, false⟩]
    ∧ (∃ r ∈ bulkSave c1df c1ed, r.cliente = "LUIS")
    ∧ ¬ (∃ r ∈ bulkSave c1df c1ed, r.cliente = "NUEVO") := by decide

/-- Claim C1 (amended): the merge loop of the bulk save keeps the prior
table's length (unmatched incoming rows are ignored, nothing is
inserted), leaves every prior record with no matching incoming row
unchanged in place (nothing is dropped at the merge stage), and
overwrites the payload of every matched prior record with the edited
row's fields. -/
theorem replaceAll_semantics (df : List Rec) (edited : List EditedRow)
    (hdf : (df.map (fun r => r.consecutivo)).Nodup)
    (hed : (edited.map (fun e => e.consecutivo)).Nodup) :
    (bulkMerge df edited).length = df.length
    ∧ (∀ (i : Nat) (r : Rec), df[i]? = some r →
        r.consecutivo ∉ edited.map (fun e => e.consecutivo) →
        (bulkMerge df edited)[i]? = some r)
    ∧ (∀ e ∈ edited, ∀ (i : Nat) (r : Rec), df[i]? = some r →
        r.consecutivo = e.consecutivo →
        (bulkMerge df edited)[i]? = some (applyEdit r e)) := by
  refine ⟨?_, ?_, ?_⟩
  · rw [bulkMerge_eq_foldl]
    exact bulkFold_length df edited df
  · intro i r hget hnotin
    rw [bulkMerge_eq_foldl, bulkFold_untouched df edited df i r hget ?hne, hget]
    case hne =>
      intro e he heq
      apply hnotin
      rw [← heq]
      exact List.mem_map_of_mem _ he
  · intro e he i r hget hc
    rw [bulkMerge_eq_foldl]
    exact bulkFold_matched df hdf edited df hed (fun j => rfl) e he i r hget hc

/-- Claim C1 witness: on the concrete table, the merge keeps both prior
records, preserves the unmatched LUIS record, and overwrites the matched
ANA record. -/
theorem replaceAll_semantics_witness :
    (bulkMerge c1df c1ed).length = 2
    ∧ (bulkMerge c1df c1ed)[1]? = some ⟨2, "LUIS", none, some 20, false⟩
    ∧ (bulkMerge c1df c1ed)[0]?
        = some (applyEdit ⟨1, "ANA", none, some 30, false⟩ ⟨1, "ANA", 5, 30, false⟩) := by
  have h := replaceAll_semantics c1df c1ed (by decide) (by decide)
  refine ⟨h.1, ?_, ?_⟩
  · exact h.2.1 1 ⟨2, "LUIS", none, some 20, false⟩ (by decide) (by decide)
  · exact h.2.2 ⟨1, "ANA", 5, 30, false⟩ (by decide) 0
      ⟨1, "ANA", none, some 30, false⟩ (by decide) rfl

end Deudores
